import Mathlib

/-!
Shallow embedding of the feedback admin dashboard (`app.py`): the API client
(`fetch_analytics`, `fetch_feedbacks`), the sentiment normalizer
(`normalize_sentiment`), the conjunctive filter (`filter_feedbacks`), the
sort-then-paginate orchestration in `main`, and the authentication gate in
`render_auth_screen`.

Records arrive as JSON dictionaries, so every field of a feedback record is
modelled as optional; reading a missing key with `dict.get(k, d)` becomes
`Option.getD`, while subscripting `fb["rating"]` on a missing key raises a
`KeyError`, which is modelled by an `Option`-valued result (`none` = the
Python call raised).
-/

/-- A feedback record as received from the API: a JSON object whose keys may
each be absent. `app.py` reads `rating` (an integer), `sentiment`, `review`,
`ai_summary` and `created_at` (strings). -/
structure Feedback where
  rating : Option Int
  sentiment : Option String
  review : Option String
  ai_summary : Option String
  created_at : Option String
deriving DecidableEq

/-- The record with every field absent: the JSON object `\x7b\x7d`. -/
def emptyFeedback : Feedback := ⟨none, none, none, none, none⟩

/-- Python `s.rstrip(".")`: remove every trailing `'.'` character. -/
def rstripDots (s : String) : String :=
  ⟨List.rdropWhile (fun c => c == '.') s.data⟩

/-- Embedding of `normalize_sentiment` (app.py line 54):
`feedback.get("sentiment", "Unknown").rstrip(".")`. -/
def normalize_sentiment (feedback : Feedback) : String :=
  rstripDots (feedback.sentiment.getD "Unknown")

/-- Whether `pre` is a leading segment of `l` (Python `str.startswith` over
explicit character lists). -/
def charsStart : List Char → List Char → Bool
  | [], _ => true
  | _ :: _, [] => false
  | a :: as, b :: bs => a == b && charsStart as bs

/-- Whether `needle` occurs contiguously inside `hay`: Python `needle in hay`
for strings, over explicit character lists. -/
def charsContain (hay needle : List Char) : Bool :=
  match hay with
  | [] => charsStart needle []
  | _ :: t => charsStart needle hay || charsContain t needle

/-- Python `needle.lower() in hay.lower()`: case-insensitive substring test as
written in `filter_feedbacks`. -/
def pyInLower (needle hay : String) : Bool :=
  charsContain hay.toLower.data needle.toLower.data

/-- The third conjunct of `filter_feedbacks` (app.py lines 65-67):
`not search_query or search_query.lower() in fb.get("review", "").lower() or
search_query.lower() in fb.get("ai_summary", "").lower()`. -/
def searchMatches (fb : Feedback) (search_query : String) : Bool :=
  search_query.isEmpty ||
    pyInLower search_query (fb.review.getD "") ||
    pyInLower search_query (fb.ai_summary.getD "")

/-- The comprehension condition of `filter_feedbacks` for one record.
`fb["rating"]` is evaluated first; on a record with no `rating` key it raises
`KeyError`, modelled as `none`. All remaining reads use `dict.get` defaults
and are total. -/
def matchesFilter (fb : Feedback) (rating_filter : List Int)
    (sentiment_filter : List String) (search_query : String) : Option Bool :=
  match fb.rating with
  | none => none
  | some r =>
      some (rating_filter.contains r &&
        sentiment_filter.contains (normalize_sentiment fb) &&
        searchMatches fb search_query)

/-- Embedding of `filter_feedbacks` (app.py lines 59-68): the list
comprehension keeping records whose condition holds. A `KeyError` raised on
any record aborts the whole call, hence the `Option` result. -/
def filter_feedbacks (feedbacks : List Feedback) (rating_filter : List Int)
    (sentiment_filter : List String) (search_query : String) :
    Option (List Feedback) :=
  match feedbacks with
  | [] => some []
  | fb :: rest =>
      match matchesFilter fb rating_filter sentiment_filter search_query with
      | none => none
      | some b =>
          match filter_feedbacks rest rating_filter sentiment_filter search_query with
          | none => none
          | some tail => some (if b then fb :: tail else tail)

/-- One HTTP attempt as seen from inside the `try` block of a fetch helper:
either some exception was raised (connection error, timeout), or a response
arrived with a status code and a body; `parsedBody = none` means
`response.json()` raises on that body. -/
inductive HttpAttempt (α : Type) where
  | raised : HttpAttempt α
  | response : Nat → Option α → HttpAttempt α
deriving DecidableEq

/-- Embedding of `fetch_analytics` (app.py lines 25-36): returns
`response.json()` on status 200, `None` on any other status, and `None` when
anything is raised (the `except` clause). -/
def fetch_analytics (attempt : HttpAttempt α) : Option α :=
  match attempt with
  | .raised => none
  | .response status body =>
      if status = 200 then
        match body with
        | some a => some a
        | none => none
      else none

/-- Embedding of `fetch_feedbacks` (app.py lines 39-51): returns
`response.json()` on status 200, the empty list on any other status, and the
empty list when anything is raised (the `except` clause). -/
def fetch_feedbacks (attempt : HttpAttempt (List α)) : List α :=
  match attempt with
  | .raised => []
  | .response status body =>
      if status = 200 then
        match body with
        | some l => l
        | none => []
      else []

/-- The sort key of app.py line 668: `lambda x: x.get("created_at", "")`. -/
def sortKey (fb : Feedback) : String :=
  fb.created_at.getD ""

/-- Embedding of `sorted(feedbacks, key=lambda x: x.get("created_at", ""),
reverse=True)` (app.py line 668). Python `sorted` is the stable sort for the
reversed key order, i.e. the stable sort placing `a` before `b` exactly when
`sortKey b ≤ sortKey a`. -/
def sortFeedbacks (feedbacks : List Feedback) : List Feedback :=
  feedbacks.mergeSort (fun a b => decide (sortKey b ≤ sortKey a))

/-- The display page size: the literal `20` in `filtered_feedbacks[:20]`
(app.py line 686). -/
def displayPageSize : Nat := 20

/-- What the feedback section of `main` derives from the fetched list: the
records actually rendered, and the two counts shown in the stats bar. -/
structure FeedbackSection where
  displayed : List Feedback
  filteredCount : Nat
  totalCount : Nat
deriving DecidableEq

/-- Embedding of the feedback branch of `main` (app.py lines 666-687): sort
the fetched list by `created_at` descending, filter it, report
`len(filtered_feedbacks)` and `len(feedbacks)` in the stats bar, and render
only `filtered_feedbacks[:20]`. -/
def feedbackSection (fetched : List Feedback) (rating_filter : List Int)
    (sentiment_filter : List String) (search_query : String) :
    Option FeedbackSection :=
  let sorted := sortFeedbacks fetched
  match filter_feedbacks sorted rating_filter sentiment_filter search_query with
  | none => none
  | some filtered =>
      some ⟨filtered.take displayPageSize, filtered.length, sorted.length⟩

/-- Embedding of the gate check in `render_auth_screen` (app.py line 622):
`api_key_input == API_KEY`. `API_KEY = os.getenv("API_KEY")` is `None` when
the variable is unset (app.py line 13), and in Python a `str` compared to
`None` with `==` is `False`. -/
def authGate (api_key_input : String) (api_key_config : Option String) : Bool :=
  match api_key_config with
  | none => false
  | some k => api_key_input == k

/-- A concrete well-formed record, used for concrete evaluations. -/
def sampleFeedback : Feedback :=
  ⟨some 5, some "Positive", some "great app", some "user praises the app",
    some "2024-01-02T00:00:00Z"⟩

theorem rstripDots_idempotent (s : String) :
    rstripDots (rstripDots s) = rstripDots s :=
  congrArg String.mk (List.rdropWhile_idempotent _ _)

/-- C1 counterexample: a non-200 response makes `fetch_feedbacks` return the
empty list — not a typed Failure — and that result is identical to the result
of a successful 200 response carrying zero records. -/
theorem fetch_feedbacks_badStatus_eq_empty_success :
    fetch_feedbacks (HttpAttempt.response 500 (some [sampleFeedback])) = ([] : List Feedback) ∧
    fetch_feedbacks (HttpAttempt.response 200 (some ([] : List Feedback))) = [] ∧
    fetch_feedbacks (HttpAttempt.response 500 (some [sampleFeedback])) =
      fetch_feedbacks (HttpAttempt.response 200 (some ([] : List Feedback))) :=
  ⟨rfl, rfl, rfl⟩

/-- C1 amended: neither fetch helper lets a fault escape, but failures are not
typed: for every failure (raised exception, non-200 status, or malformed body
on 200) `fetch_analytics` returns `none` and `fetch_feedbacks` returns the
empty list, the latter indistinguishable from a successful zero-record
response. -/
theorem fetch_failures_collapse (status : Nat) (bodyF : Option (List Feedback))
    (bodyA : Option Nat) (h : status ≠ 200) :
    fetch_feedbacks (HttpAttempt.response status bodyF) = [] ∧
    fetch_feedbacks (HttpAttempt.raised : HttpAttempt (List Feedback)) = [] ∧
    fetch_feedbacks (HttpAttempt.response 200 (none : Option (List Feedback))) = [] ∧
    fetch_feedbacks (HttpAttempt.response status bodyF) =
      fetch_feedbacks (HttpAttempt.response 200 (some ([] : List Feedback))) ∧
    fetch_analytics (HttpAttempt.response status bodyA) = none ∧
    fetch_analytics (HttpAttempt.raised : HttpAttempt Nat) = none ∧
    fetch_analytics (HttpAttempt.response 200 (none : Option Nat)) = none := by
  simp [fetch_feedbacks, fetch_analytics, h]

theorem fetch_failures_collapse_witness :
    (404 ≠ 200) ∧
    (fetch_feedbacks (HttpAttempt.response 404 (some [sampleFeedback])) = [] ∧
    fetch_feedbacks (HttpAttempt.raised : HttpAttempt (List Feedback)) = [] ∧
    fetch_feedbacks (HttpAttempt.response 200 (none : Option (List Feedback))) = [] ∧
    fetch_feedbacks (HttpAttempt.response 404 (some [sampleFeedback])) =
      fetch_feedbacks (HttpAttempt.response 200 (some ([] : List Feedback))) ∧
    fetch_analytics (HttpAttempt.response 404 (some 3)) = none ∧
    fetch_analytics (HttpAttempt.raised : HttpAttempt Nat) = none ∧
    fetch_analytics (HttpAttempt.response 200 (none : Option Nat)) = none) :=
  ⟨by decide, fetch_failures_collapse 404 (some [sampleFeedback]) (some 3) (by decide)⟩

/-- C4: with a `sentiment` field present, `normalize_sentiment` returns that
string with all trailing `'.'` characters removed; with the field absent it
returns "Unknown"; in particular "Positive." and "Positive" normalize to the
same value "Positive", and the empty record normalizes to "Unknown". -/
theorem normalize_sentiment_strips_trailing_dots (fb fb2 : Feedback) (s : String) :
    normalize_sentiment { fb with sentiment := some s } =
      ⟨List.rdropWhile (fun c => c == '.') s.data⟩ ∧
    normalize_sentiment { fb with sentiment := none } = "Unknown" ∧
    normalize_sentiment { fb2 with sentiment := some "Positive." } =
      normalize_sentiment { fb2 with sentiment := some "Positive" } ∧
    normalize_sentiment { fb2 with sentiment := some "Positive." } = "Positive" ∧
    normalize_sentiment emptyFeedback = "Unknown" :=
  ⟨rfl, rfl, rfl, rfl, rfl⟩

/-- C5: sentiment normalization is idempotent — normalizing a record whose
sentiment holds an already-normalized value returns that value unchanged. -/
theorem normalize_sentiment_idempotent (s : String) (fb fb2 : Feedback) :
    normalize_sentiment
        { fb2 with sentiment := some (normalize_sentiment { fb with sentiment := some s }) } =
      normalize_sentiment { fb with sentiment := some s } := by
  show rstripDots (rstripDots s) = rstripDots s
  exact rstripDots_idempotent s

/-- C10: the gate grants access exactly when the configured API_KEY is set and
equals the entered string; with API_KEY unset (None), no input authenticates. -/
theorem authGate_iff (input : String) (cfg : Option String) :
    (authGate input cfg = true ↔ cfg = some input) ∧ authGate input none = false := by
  refine ⟨?_, rfl⟩
  cases cfg with
  | none => simp [authGate]
  | some k =>
      simp only [authGate, beq_iff_eq, Option.some.injEq]
      exact eq_comm

theorem matchesFilter_of_rating (fb : Feedback) (rf : List Int) (sf : List String)
    (q : String) (r : Int) (h : fb.rating = some r) :
    matchesFilter fb rf sf q =
      some (rf.contains r && sf.contains (normalize_sentiment fb) && searchMatches fb q) := by
  simp [matchesFilter, h]

theorem filter_feedbacks_eq_filter (fbs : List Feedback) (rf : List Int) (sf : List String)
    (q : String) (h : ∀ fb ∈ fbs, (fb.rating).isSome) :
    filter_feedbacks fbs rf sf q =
      some (fbs.filter fun fb => (matchesFilter fb rf sf q).getD false) := by
  induction fbs with
  | nil => rfl
  | cons fb rest ih =>
      obtain ⟨r, hr⟩ := Option.isSome_iff_exists.mp (h fb (List.mem_cons_self _ _))
      have hrest := ih fun x hx => h x (List.mem_cons_of_mem _ hx)
      simp only [filter_feedbacks, matchesFilter, hr, hrest, List.filter_cons,
        Option.getD_some]

theorem filter_feedbacks_none_of_missing (fbs : List Feedback) (rf : List Int)
    (sf : List String) (q : String) (fb : Feedback) (hmem : fb ∈ fbs)
    (hnone : fb.rating = none) :
    filter_feedbacks fbs rf sf q = none := by
  induction fbs with
  | nil => cases hmem
  | cons a rest ih =>
      rcases List.mem_cons.mp hmem with h | h
      · subst h
        simp [filter_feedbacks, matchesFilter, hnone]
      · simp only [filter_feedbacks]
        cases ha : matchesFilter a rf sf q with
        | none => rfl
        | some b => simp [ih h]

/-- C2 counterexample: on a record with no `rating` key, `filter_feedbacks`
raises `KeyError` (modelled as `none`) instead of applying a default, even
with the widest filter selections. -/
theorem filter_feedbacks_keyerror_on_missing_rating :
    filter_feedbacks [emptyFeedback] [1, 2, 3, 4, 5]
      ["Positive", "Neutral", "Negative", "Unknown"] "" = none := rfl

/-- C2 amended: `normalize_sentiment` is total (missing sentiment defaults to
"Unknown"), and `filter_feedbacks` succeeds exactly when every record has a
`rating` key — missing `review`/`ai_summary`/`sentiment` fields default
harmlessly, but a record with no `rating` makes the call raise `KeyError`. -/
theorem filter_totality_boundary (fbs : List Feedback) (rf : List Int)
    (sf : List String) (q : String) (fb0 : Feedback) :
    ((filter_feedbacks fbs rf sf q).isSome ↔ ∀ fb ∈ fbs, (fb.rating).isSome) ∧
    normalize_sentiment { fb0 with sentiment := none } = "Unknown" ∧
    searchMatches { fb0 with review := none, ai_summary := none } "" = true := by
  refine ⟨⟨?_, ?_⟩, rfl, rfl⟩
  · intro hs
    by_contra hnot
    push_neg at hnot
    obtain ⟨fb, hmem, hrate⟩ := hnot
    rw [filter_feedbacks_none_of_missing fbs rf sf q fb hmem
      (Option.not_isSome_iff_eq_none.mp hrate)] at hs
    cases hs
  · intro h
    rw [filter_feedbacks_eq_filter fbs rf sf q h]
    rfl

/-- C3: when every record carries a rating, `filter_feedbacks` succeeds and
keeps a record exactly when its rating is in the rating filter, its
normalized sentiment is in the sentiment filter, and the query is empty or a
case-insensitive substring of the review or of the AI summary (missing text
fields read as the empty string). -/
theorem filter_feedbacks_mem_iff (fbs : List Feedback) (rf : List Int)
    (sf : List String) (q : String) (h : ∀ fb ∈ fbs, (fb.rating).isSome) :
    ∃ l, filter_feedbacks fbs rf sf q = some l ∧
      ∀ fb, fb ∈ l ↔
        (fb ∈ fbs ∧ (∃ r, fb.rating = some r ∧ r ∈ rf) ∧
          normalize_sentiment fb ∈ sf ∧
          (q = "" ∨ pyInLower q (fb.review.getD "") = true ∨
            pyInLower q (fb.ai_summary.getD "") = true)) := by
  refine ⟨_, filter_feedbacks_eq_filter fbs rf sf q h, fun fb => ?_⟩
  rw [List.mem_filter]
  refine and_congr_right fun hmem => ?_
  obtain ⟨r, hr⟩ := Option.isSome_iff_exists.mp (h fb hmem)
  rw [matchesFilter_of_rating fb rf sf q r hr, Option.getD_some]
  simp only [Bool.and_eq_true, searchMatches, Bool.or_eq_true]
  constructor
  · rintro ⟨⟨h1, h2⟩, h3⟩
    refine ⟨⟨r, hr, by simpa using h1⟩, by simpa using h2, ?_⟩
    rcases h3 with (h3 | h3) | h3
    · exact Or.inl ((String.isEmpty_iff q).mp h3)
    · exact Or.inr (Or.inl h3)
    · exact Or.inr (Or.inr h3)
  · rintro ⟨⟨r2, hr2, hrf⟩, hsf, hq⟩
    have e : r2 = r := by
      rw [hr] at hr2
      exact (Option.some.inj hr2).symm
    subst e
    refine ⟨⟨by simpa using hrf, by simpa using hsf⟩, ?_⟩
    rcases hq with hq | hq | hq
    · exact Or.inl (Or.inl ((String.isEmpty_iff q).mpr hq))
    · exact Or.inl (Or.inr hq)
    · exact Or.inr hq

/-- A second concrete record, matching the negative review of the spec's
filter-conjunction test. -/
def negativeFeedback : Feedback :=
  ⟨some 1, some "Negative", some "bad bug", none, some "2024-01-01T00:00:00Z"⟩

theorem filter_feedbacks_mem_iff_witness :
    (∀ fb ∈ [sampleFeedback, negativeFeedback], (fb.rating).isSome) ∧
    (∃ l, filter_feedbacks [sampleFeedback, negativeFeedback] [5] ["Positive"] "" = some l ∧
      ∀ fb, fb ∈ l ↔
        (fb ∈ [sampleFeedback, negativeFeedback] ∧
          (∃ r, fb.rating = some r ∧ r ∈ [(5 : Int)]) ∧
          normalize_sentiment fb ∈ ["Positive"] ∧
          ((("" : String) = "") ∨ pyInLower "" (fb.review.getD "") = true ∨
            pyInLower "" (fb.ai_summary.getD "") = true))) :=
  ⟨by decide, filter_feedbacks_mem_iff [sampleFeedback, negativeFeedback] [5] ["Positive"] ""
    (by decide)⟩

/-- C6: an empty rating filter or an empty sentiment filter matches nothing,
so filtering returns the empty list. -/
theorem filter_feedbacks_empty_sets (fbs : List Feedback) (rf : List Int)
    (sf : List String) (q : String) (h : ∀ fb ∈ fbs, (fb.rating).isSome) :
    filter_feedbacks fbs [] sf q = some [] ∧ filter_feedbacks fbs rf [] q = some [] := by
  constructor
  · rw [filter_feedbacks_eq_filter fbs [] sf q h]
    refine congrArg some (List.filter_eq_nil_iff.mpr fun a ha => ?_)
    obtain ⟨r, hr⟩ := Option.isSome_iff_exists.mp (h a ha)
    simp [matchesFilter, hr]
  · rw [filter_feedbacks_eq_filter fbs rf [] q h]
    refine congrArg some (List.filter_eq_nil_iff.mpr fun a ha => ?_)
    obtain ⟨r, hr⟩ := Option.isSome_iff_exists.mp (h a ha)
    simp [matchesFilter, hr]

theorem filter_feedbacks_empty_sets_witness :
    (∀ fb ∈ [sampleFeedback, negativeFeedback], (fb.rating).isSome) ∧
    (filter_feedbacks [sampleFeedback, negativeFeedback] [] ["Positive"] "" = some [] ∧
     filter_feedbacks [sampleFeedback, negativeFeedback] [5] [] "" = some []) :=
  ⟨by decide, filter_feedbacks_empty_sets [sampleFeedback, negativeFeedback] [5] ["Positive"] ""
    (by decide)⟩

/-- C7: whatever filter criteria are used, a successful `filter_feedbacks`
returns a subsequence of its input — relative order is preserved and nothing
is re-sorted. -/
theorem filter_feedbacks_sublist (fbs : List Feedback) (rf : List Int)
    (sf : List String) (q : String) (l : List Feedback)
    (h : filter_feedbacks fbs rf sf q = some l) :
    List.Sublist l fbs := by
  induction fbs generalizing l with
  | nil =>
      simp only [filter_feedbacks, Option.some.injEq] at h
      subst h
      exact List.Sublist.refl []
  | cons fb rest ih =>
      simp only [filter_feedbacks] at h
      cases hm : matchesFilter fb rf sf q with
      | none => rw [hm] at h; cases h
      | some b =>
          rw [hm] at h
          cases hrest : filter_feedbacks rest rf sf q with
          | none => rw [hrest] at h; cases h
          | some tail =>
              rw [hrest] at h
              have htail := ih tail hrest
              cases b with
              | true =>
                  simp only [if_true, Option.some.injEq] at h
                  subst h
                  exact List.Sublist.cons₂ fb htail
              | false =>
                  simp only [if_false, Option.some.injEq] at h
                  subst h
                  exact List.Sublist.cons fb htail

theorem filter_feedbacks_sublist_witness :
    (filter_feedbacks [sampleFeedback, negativeFeedback] [5] ["Positive"] "" =
      some [sampleFeedback]) ∧
    List.Sublist [sampleFeedback] [sampleFeedback, negativeFeedback] :=
  ⟨by decide, filter_feedbacks_sublist [sampleFeedback, negativeFeedback] [5] ["Positive"] ""
    [sampleFeedback] (by decide)⟩

theorem sortFeedbacks_pairwise (fbs : List Feedback) :
    List.Pairwise (fun a b => sortKey b ≤ sortKey a) (sortFeedbacks fbs) := by
  have hp : List.Pairwise (fun a b => decide (sortKey b ≤ sortKey a) = true)
      (sortFeedbacks fbs) := by
    simp only [sortFeedbacks]
    apply List.sorted_mergeSort
    · intro a b c hab hbc
      exact decide_eq_true (le_trans (of_decide_eq_true hbc) (of_decide_eq_true hab))
    · intro a b
      rcases le_total (sortKey b) (sortKey a) with h | h <;> simp [h]
  exact hp.imp fun hab => of_decide_eq_true hab

/-- C8: the fetched collection is sorted by `created_at` descending — the
result is a permutation of the input in which every record's key is at least
that of each later record — and a record with no `created_at` uses the empty
string as its key, the minimum, so it belongs at the tail of the descending
order. -/
theorem sortFeedbacks_spec (fbs : List Feedback) (fb : Feedback) (s : String) :
    List.Perm (sortFeedbacks fbs) fbs ∧
    List.Pairwise (fun a b => sortKey b ≤ sortKey a) (sortFeedbacks fbs) ∧
    sortKey { fb with created_at := none } = "" ∧
    "" ≤ s :=
  ⟨List.mergeSort_perm fbs _, sortFeedbacks_pairwise fbs, rfl,
    String.le_iff_toList_le.mpr List.nil_le⟩

/-- C9: when filtering succeeds, the rendered page is exactly the first 20
(`displayPageSize`) records of the filtered list, the displayed filtered
count is the length of the entire filtered list, and the displayed total is
the length of the entire fetched list — not the capped slice. -/
theorem feedbackSection_spec (fetched : List Feedback) (rf : List Int)
    (sf : List String) (q : String) (filtered : List Feedback)
    (h : filter_feedbacks (sortFeedbacks fetched) rf sf q = some filtered) :
    feedbackSection fetched rf sf q =
      some ⟨filtered.take displayPageSize, filtered.length, fetched.length⟩ ∧
    displayPageSize = 20 := by
  refine ⟨?_, rfl⟩
  simp only [feedbackSection]
  rw [h]
  simp only [sortFeedbacks, List.length_mergeSort]

theorem feedbackSection_spec_witness :
    (filter_feedbacks (sortFeedbacks [sampleFeedback]) [5] ["Positive"] "" =
      some [sampleFeedback]) ∧
    (feedbackSection [sampleFeedback] [5] ["Positive"] "" =
      some ⟨[sampleFeedback].take displayPageSize, [sampleFeedback].length,
        [sampleFeedback].length⟩ ∧
      displayPageSize = 20) := by
  have hfilter : filter_feedbacks (sortFeedbacks [sampleFeedback]) [5] ["Positive"] "" =
      some [sampleFeedback] := by
    have hsort : sortFeedbacks [sampleFeedback] = [sampleFeedback] := by
      simp [sortFeedbacks]
    rw [hsort]
    decide
  exact ⟨hfilter,
    feedbackSection_spec [sampleFeedback] [5] ["Positive"] "" [sampleFeedback] hfilter⟩
